import Mathlib

/-!
Shallow embedding of the realtime voice-relay subsystem of the
`ai-sdk-practice` repository: the server-side tool dispatcher and relay
message handler (`src/server.ts`), and the client-side audio pipeline
(voice-assistant page: PCM encoding/decoding, playback scheduling,
barge-in).  Machine-level details are embedded explicitly: JavaScript
exceptions become `Except`, `Record<string, string>` argument objects
become association lists, `DataView.setInt16` truncation and wrap-around
are modelled on `Int`, and audio time is modelled on `Rat`.
-/

namespace VoiceRelay

/-- JavaScript `String.prototype.toLowerCase` on the character list level
(per-character lowercasing, as the relay only uses ASCII data). -/
def jsToLower (s : String) : String :=
  String.mk (s.toList.map Char.toLower)

/-- Does the list `need` occur at the head of `hay`?  (Helper for
JavaScript `String.prototype.includes`.) -/
def listStartsWith : List Char → List Char → Bool
  | _, [] => true
  | [], _ :: _ => false
  | a :: as, b :: bs => a == b && listStartsWith as bs

/-- Does the list `need` occur contiguously anywhere in `hay`? -/
def listIncludes : List Char → List Char → Bool
  | [], need => need.isEmpty
  | h :: t, need => listStartsWith (h :: t) need || listIncludes t need

/-- JavaScript `hay.includes(need)`: contiguous-substring test. -/
def jsIncludes (hay need : String) : Bool :=
  listIncludes hay.toList need.toList

/-- An entry of the employee knowledge base (`public/employee.json`),
restricted to the fields `server.ts` reads. -/
structure Employee where
  name : String
  designation : String
  email : String
deriving DecidableEq, Repr

/-- The reduced projection produced by the `getAllEmployees` tool. -/
structure EmployeeSummary where
  name : String
  designation : String
  email : String
deriving DecidableEq, Repr

/-- One service entry of the company profile (`public/about.json`). -/
structure Service where
  title : String
  description : String
deriving DecidableEq, Repr

/-- The company profile (`public/about.json`), restricted to the fields
`server.ts` reads. -/
structure AboutData where
  company_name : String
  description : String
  closing_statement : String
  services_intro : String
  services : List Service
deriving DecidableEq, Repr

/-- One question/answer pair of the FAQ knowledge base. -/
structure FAQ where
  question : String
  answer : String
deriving DecidableEq, Repr

/-- One FAQ category (`public/faq.json`). -/
structure FAQCategory where
  title_highlight : String
  faqs : List FAQ
deriving DecidableEq, Repr

/-- A `searchFAQ` hit: a question/answer pair tagged with the label of the
category it came from. -/
structure FAQHit where
  category : String
  question : String
  answer : String
deriving DecidableEq, Repr

/-- The structured result objects `executeTool` returns.  Every
constructor except `failure` corresponds to a `success: true` object of
the source; `failure` carries the `success: false` message. -/
inductive ToolResult where
  | failure (message : String)
  | employeesFound (employees : List Employee)
  | designationFound (count : Nat) (employees : List Employee)
  | allEmployees (count : Nat) (summary : List EmployeeSummary)
  | companyInfo (company description closingStatement : String)
  | servicesFound (services : List Service)
  | allServices (intro : String) (services : List Service)
  | faqResults (count : Nat) (faqs : List FAQHit)
  | categoryFaqs (category : String) (count : Nat) (faqs : List FAQ)
deriving DecidableEq, Repr

/-- The `success` field of the returned object. -/
def ToolResult.success : ToolResult → Bool
  | .failure _ => false
  | _ => true

/-- A JavaScript `Record<string, string>` argument object, as produced by
`JSON.parse` of the tool-call argument payload. -/
def Args := List (String × String)

/-- Field access `args.k`: `some v` when the field is present, `none` for
JavaScript `undefined`. -/
def lookupArg (args : Args) (k : String) : Option String :=
  (args.find? (fun p => p.1 == k)).map (fun p => p.2)

/-- Comma-and-space join, as `Array.prototype.join(", ")`. -/
def joinComma : List String → String
  | [] => ""
  | [s] => s
  | s :: rest => s ++ ", " ++ joinComma rest

/-- The tool dispatcher `executeTool` of `src/server.ts` (lines 131-239),
parametrised by the three knowledge-base collections.  A JavaScript
`TypeError` (reading `.toLowerCase` of an `undefined` argument field) is
embedded as `Except.error`; every `return` of the source is `Except.ok`. -/
def executeTool (employees : List Employee) (aboutData : AboutData)
    (faqData : List FAQCategory) (name : String) (args : Args) :
    Except String ToolResult :=
  if name = "getEmployeeByName" then
    match lookupArg args "name" with
    | none => .error "TypeError: undefined has no toLowerCase"
    | some nm =>
      let searchTerm := jsToLower nm
      let found := employees.filter
        (fun emp => jsIncludes (jsToLower emp.name) searchTerm)
      if found.length = 0 then
        .ok (.failure ("No employee found matching \"" ++ nm ++ "\""))
      else
        .ok (.employeesFound found)
  else if name = "getEmployeeByDesignation" then
    match lookupArg args "designation" with
    | none => .error "TypeError: undefined has no toLowerCase"
    | some dsg =>
      let searchTerm := jsToLower dsg
      let found := employees.filter
        (fun emp => jsIncludes (jsToLower emp.designation) searchTerm)
      if found.length = 0 then
        .ok (.failure ("No employees found with designation \"" ++ dsg ++ "\""))
      else
        .ok (.designationFound found.length found)
  else if name = "getAllEmployees" then
    .ok (.allEmployees employees.length
      (employees.map (fun emp => ⟨emp.name, emp.designation, emp.email⟩)))
  else if name = "getCompanyInfo" then
    .ok (.companyInfo aboutData.company_name aboutData.description
      aboutData.closing_statement)
  else if name = "getServices" then
    match lookupArg args "serviceName" with
    | some sn =>
      if sn = "" then
        .ok (.allServices aboutData.services_intro aboutData.services)
      else
        let searchTerm := jsToLower sn
        let found := aboutData.services.filter
          (fun sv => jsIncludes (jsToLower sv.title) searchTerm
            || jsIncludes (jsToLower sv.description) searchTerm)
        if found.length = 0 then
          .ok (.failure ("No service found matching \"" ++ sn ++ "\""))
        else
          .ok (.servicesFound found)
    | none => .ok (.allServices aboutData.services_intro aboutData.services)
  else if name = "searchFAQ" then
    match lookupArg args "query" with
    | none => .error "TypeError: undefined has no toLowerCase"
    | some q =>
      let searchTerm := jsToLower q
      let results := faqData.flatMap (fun cat =>
        (cat.faqs.filter (fun faq =>
            jsIncludes (jsToLower faq.question) searchTerm
              || jsIncludes (jsToLower faq.answer) searchTerm)).map
          (fun faq => FAQHit.mk cat.title_highlight faq.question faq.answer))
      if results.length = 0 then
        .ok (.failure ("No FAQs found matching \"" ++ q ++ "\""))
      else
        .ok (.faqResults results.length results)
  else if name = "getFAQsByCategory" then
    match lookupArg args "category" with
    | none => .error "TypeError: undefined has no toLowerCase"
    | some c =>
      let searchTerm := jsToLower c
      match faqData.find?
          (fun cat => jsIncludes (jsToLower cat.title_highlight) searchTerm) with
      | none =>
        .ok (.failure ("Category not found. Available: "
          ++ joinComma (faqData.map (fun cat => cat.title_highlight))))
      | some found =>
        .ok (.categoryFaqs found.title_highlight found.faqs.length found.faqs)
  else .ok (.failure ("Unknown tool: " ++ name))

/-- Serialization of a `ToolResult` back into a JSON string
(`JSON.stringify(result)` in the source), embedded as a deterministic
total printer over the structured result. -/
def serializeToolResult : ToolResult → String
  | .failure m => "failure:" ++ m
  | .employeesFound es => "employees:" ++ joinComma (es.map (fun e => e.name))
  | .designationFound n es =>
      "designation:" ++ toString n ++ ":" ++ joinComma (es.map (fun e => e.name))
  | .allEmployees n s =>
      "all:" ++ toString n ++ ":" ++ joinComma (s.map (fun e => e.name))
  | .companyInfo c d cl => "company:" ++ c ++ ":" ++ d ++ ":" ++ cl
  | .servicesFound svs => "services:" ++ joinComma (svs.map (fun s => s.title))
  | .allServices i svs =>
      "allServices:" ++ i ++ ":" ++ joinComma (svs.map (fun s => s.title))
  | .faqResults n fs => "faqs:" ++ toString n ++ ":" ++ joinComma (fs.map (fun f => f.question))
  | .categoryFaqs c n fs =>
      "categoryFaqs:" ++ c ++ ":" ++ toString n ++ ":" ++ joinComma (fs.map (fun f => f.question))

/-- An upstream (OpenAI → relay) protocol message, restricted to the
fields the relay's `openaiWs.on("message")` handler reads.
`argumentsPayload` is the outcome of `JSON.parse(msg.arguments)`: `some`
an argument object when the payload parses, `none` when the parse
throws. -/
structure UpMsg where
  type : String
  call_id : String
  name : String
  argumentsPayload : Option Args

/-- A message the relay sends to the upstream connection while handling
one inbound upstream message. -/
inductive UpstreamSend where
  | itemCreate (call_id : String) (output : String)
  | responseCreate
deriving DecidableEq, Repr

/-- The tool-call interception of `handleRealtimeConnection`
(`src/server.ts` lines 331-361): for a
`response.function_call_arguments.done` event the relay parses the
argument payload, dispatches the tool, and sends the serialized result
plus a continue-generation request upstream; a throw from the parse or
the dispatch is swallowed by the surrounding `try`/`catch` and nothing
is sent.  The returned list is the sequence of upstream sends. -/
def handleUpstreamMessage (employees : List Employee) (aboutData : AboutData)
    (faqData : List FAQCategory) (msg : UpMsg) : List UpstreamSend :=
  if msg.type = "response.function_call_arguments.done" then
    match msg.argumentsPayload with
    | none => []
    | some args =>
      match executeTool employees aboutData faqData msg.name args with
      | .error _ => []
      | .ok result =>
        [.itemCreate msg.call_id (serializeToolResult result), .responseCreate]
  else []

/-! ### Audio codec (client page `floatTo16BitPCM` / `playAudioChunk`) -/

/-- The clamp `Math.max(-1, Math.min(1, x))` of `floatTo16BitPCM`. -/
def clampSample (x : ℚ) : ℚ := max (-1) (min 1 x)

/-- The value handed to `DataView.setInt16`:
`s < 0 ? s * 0x8000 : s * 0x7fff`, truncated toward zero as JavaScript's
integer conversion does (ceiling for negative values, floor for
non-negative ones). -/
def encodeSampleRaw (x : ℚ) : ℤ :=
  if clampSample x < 0 then ⌈clampSample x * 32768⌉
  else ⌊clampSample x * 32767⌋

/-- `DataView.setInt16` stores the low 16 bits: wrap-around into the
signed 16-bit range. -/
def wrapInt16 (v : ℤ) : ℤ := (v + 32768) % 65536 - 32768

/-- One sample of the capture-direction encoding (`floatTo16BitPCM`). -/
def encodeSample (x : ℚ) : ℤ := wrapInt16 (encodeSampleRaw x)

/-- One sample of the playback-direction decoding
(`float32[i] = pcm16[i] / 0x7fff` in `playAudioChunk`). -/
def decodeSample (v : ℤ) : ℚ := (v : ℚ) / 32767

/-- Reinterpret two little-endian bytes as one signed 16-bit sample
(the `Int16Array` view over the decoded byte buffer). -/
def toInt16 (lo hi : ℕ) : ℤ :=
  let v : ℤ := (lo % 256 : ℕ) + 256 * (hi % 256 : ℕ)
  if v < 32768 then v else v - 65536

/-- Pair up a byte list into little-endian signed 16-bit samples; a
trailing odd byte yields no sample. -/
def pairBytes : List ℕ → List ℤ
  | lo :: hi :: rest => toInt16 lo hi :: pairBytes rest
  | _ => []

/-- The `playAudioChunk` decode path (voice-assistant page, lines
202-211): the decoded byte string is copied into a buffer of even length
(one zero byte of padding when the length is odd) and reinterpreted as
16-bit samples. -/
def decodeAudioPayload (bs : List ℕ) : List ℤ :=
  pairBytes (if bs.length % 2 = 0 then bs else bs ++ [0])

/-! ### Playback scheduler and barge-in (client page) -/

/-- One scheduled `AudioBufferSourceNode`: its computed start time and
its buffer duration, in seconds of engine time. -/
structure ScheduledSource where
  startTime : ℚ
  duration : ℚ
deriving DecidableEq, Repr

/-- The client playback state: the `audioQueueRef` list of scheduled
sources, the `nextStartTimeRef` cursor, and whether
`audioContextRef.current` is non-null. -/
structure PlayerState where
  audioQueue : List ScheduledSource
  nextStartTime : ℚ
  hasContext : Bool
deriving DecidableEq, Repr

/-- `stopAudioPlayback` (voice-assistant page, lines 91-101): when an
audio context exists, every queued source receives `.stop()`, the queue
is cleared and the cursor is reset to `0`.  Returns the new state and
the list of sources that were stopped. -/
def stopAudioPlayback (st : PlayerState) : PlayerState × List ScheduledSource :=
  if st.hasContext then
    ({ st with audioQueue := [], nextStartTime := 0 }, st.audioQueue)
  else
    (st, [])

/-- The scheduling step of `playAudioChunk` (lines 224-237): the chunk
starts at `max(currentTime, nextStartTime)` and the cursor advances to
`start + duration`.  Returns the updated state. -/
def playAudioChunkSchedule (st : PlayerState) (currentTime duration : ℚ) :
    PlayerState :=
  let start := max currentTime st.nextStartTime
  { st with
      audioQueue := st.audioQueue ++ [⟨start, duration⟩],
      nextStartTime := start + duration }

/-- A run of the scheduler with no intervening barge-in: fold
`playAudioChunkSchedule` over a list of (engine clock at arrival,
duration) pairs, recording for each chunk its clock, duration and
computed start. -/
def scheduleRun (cursor : ℚ) : List (ℚ × ℚ) → List (ℚ × ℚ × ℚ)
  | [] => []
  | (clk, d) :: rest =>
    (clk, d, max clk cursor) :: scheduleRun (max clk cursor + d) rest

/-! ### Relay connection lifecycle (`handleRealtimeConnection` close
handlers, `src/server.ts` lines 382-392) -/

/-- The readiness state of one WebSocket handle. -/
inductive WsState where
  | connecting
  | wsOpen
  | wsClosed
deriving DecidableEq, Repr

/-- The pair of connection handles a relay session owns. -/
structure RelayConns where
  client : WsState
  upstream : WsState
deriving DecidableEq, Repr

/-- The lifecycle events the relay's handlers observe. -/
inductive RelayEvent where
  | clientClose
  | upstreamClose
  | upstreamOpen
deriving DecidableEq, Repr

/-- One scheduling step of the relay's lifecycle handlers: `clientWs` on
close closes `openaiWs` only when its `readyState` is `OPEN` (not while
the dial is in progress), and vice versa; the upstream `open` event just
marks the dial complete (the session-config send carries no lifecycle
effect). -/
def relayStep (s : RelayConns) : RelayEvent → RelayConns
  | .clientClose =>
    { client := .wsClosed,
      upstream := if s.upstream = .wsOpen then .wsClosed else s.upstream }
  | .upstreamClose =>
    { upstream := .wsClosed,
      client := if s.client = .wsOpen then .wsClosed else s.client }
  | .upstreamOpen =>
    { s with
        upstream := if s.upstream = .connecting then .wsOpen else s.upstream }

/-- The seven tool names `executeTool` recognises (the cases of its
switch). -/
def knownToolNames : List String :=
  ["getEmployeeByName", "getEmployeeByDesignation", "getAllEmployees",
   "getCompanyInfo", "getServices", "searchFAQ", "getFAQsByCategory"]

/-- A small concrete employee collection, standing in for
`public/employee.json` when a theorem needs an explicit input. -/
def sampleEmployees : List Employee :=
  [⟨"John Doe", "CTO", "john@sb.com"⟩,
   ⟨"Alice Johnson", "Full-Stack Engineer", "alice@sb.com"⟩]

/-- A small concrete company profile, standing in for `public/about.json`
when a theorem needs an explicit input. -/
def sampleAbout : AboutData :=
  ⟨"StrategyByte", "A digital agency", "Get in touch", "We offer",
   [⟨"SEO", "search engine optimization"⟩]⟩

/-- A concrete FAQ knowledge base with two categories whose labels both
contain the word "marketing". -/
def sampleFaqs : List FAQCategory :=
  [⟨"Marketing Agency", [⟨"What is marketing?", "Ads"⟩]⟩,
   ⟨"Marketing Basics", [⟨"How to market?", "Practice"⟩]⟩]

/-- The empty search needle matches every haystack, as JavaScript
`includes` does. -/
theorem listIncludes_nil (l : List Char) : listIncludes l [] = true := by
  cases l with
  | nil => rfl
  | cons h t => simp [listIncludes, listStartsWith]

/-- A successful `List.find?` splits the list into a prefix of
non-matching elements, the first match, and a remainder. -/
theorem find?_split {α : Type} (p : α → Bool) :
    ∀ (l : List α) (a : α), l.find? p = some a →
      ∃ l₁ l₂, l = l₁ ++ a :: l₂ ∧ p a = true ∧ ∀ x ∈ l₁, p x = false
  | [], a, h => by simp [List.find?] at h
  | b :: t, a, h => by
    rw [List.find?_cons] at h
    by_cases hb : p b
    · refine ⟨[], t, ?_, ?_, ?_⟩ <;> simp_all
    · simp only [hb, Bool.false_eq_true, if_neg] at h
      simp only [Bool.not_eq_true] at hb
      obtain ⟨l₁, l₂, hsplit, hpa, hpre⟩ := find?_split p t a h
      exact ⟨b :: l₁, l₂, by simp [hsplit], hpa, by
        intro x hx
        rcases List.mem_cons.mp hx with hx | hx
        · exact hx ▸ hb
        · exact hpre x hx⟩

/-- C2 (counterexample): dispatching `getEmployeeByName` with an argument
object that has no `name` field does not produce a failure `ToolResult`;
`args.name.toLowerCase()` raises a `TypeError`, embedded as
`Except.error` — refuting the claim that a missing required argument
yields `success:false` rather than a thrown error. -/
theorem executeTool_missingArg_raises :
    executeTool sampleEmployees sampleAbout sampleFaqs "getEmployeeByName"
      ([] : Args) = .error "TypeError: undefined has no toLowerCase" := rfl

/-- C2 (amended): the Tool Dispatcher returns a failure `ToolResult` for
an unknown tool name and for a zero-match lookup, but a missing required
argument (e.g. `getEmployeeByName` with no `name` field) raises a fault
(a `TypeError`), which the relay's surrounding `try`/`catch` absorbs. -/
theorem executeTool_failure_modes (E : List Employee) (A : AboutData)
    (F : List FAQCategory) (name : String) (args : Args) :
    (name ∉ knownToolNames →
      executeTool E A F name args = .ok (.failure ("Unknown tool: " ++ name)))
    ∧ (lookupArg args "name" = none →
      executeTool E A F "getEmployeeByName" args =
        .error "TypeError: undefined has no toLowerCase")
    ∧ (∀ nm, lookupArg args "name" = some nm →
      E.filter (fun emp => jsIncludes (jsToLower emp.name) (jsToLower nm)) = [] →
      executeTool E A F "getEmployeeByName" args =
        .ok (.failure ("No employee found matching \"" ++ nm ++ "\""))) := by
  refine ⟨?_, ?_, ?_⟩
  · intro h
    simp only [knownToolNames, List.mem_cons, List.not_mem_nil, or_false,
      not_or] at h
    obtain ⟨h1, h2, h3, h4, h5, h6, h7⟩ := h
    simp [executeTool, h1, h2, h3, h4, h5, h6, h7]
  · intro h
    simp [executeTool, h]
  · intro nm hnm hfilter
    simp [executeTool, hnm, hfilter]

/-- Closed instance of `executeTool_failure_modes`: the unknown tool
`bookTable` and the zero-match search term `zzz` both yield failure
results on the sample knowledge base. -/
theorem executeTool_failure_modes_witness :
    executeTool sampleEmployees sampleAbout sampleFaqs "bookTable" ([] : Args) =
      .ok (.failure "Unknown tool: bookTable") ∧
    executeTool sampleEmployees sampleAbout sampleFaqs "getEmployeeByName"
      [("name", "zzz")] = .ok (.failure "No employee found matching \"zzz\"") :=
  ⟨(executeTool_failure_modes sampleEmployees sampleAbout sampleFaqs
      "bookTable" ([] : Args)).1 (by decide),
   (executeTool_failure_modes sampleEmployees sampleAbout sampleFaqs
      "getEmployeeByName" [("name", "zzz")]).2.2 "zzz" rfl rfl⟩

/-- C8: the tool dispatcher has no booking-creation case — dispatching
`createBooking` (with any arguments, over any knowledge base) falls
through to the default branch and returns the unknown-tool failure, even
though the repository's own implementation guide documents a
`createBooking` case that persists a booking and returns its
identifier. -/
theorem executeTool_createBooking_unknown (E : List Employee) (A : AboutData)
    (F : List FAQCategory) (args : Args) :
    executeTool E A F "createBooking" args =
      .ok (.failure "Unknown tool: createBooking") := by
  simp [executeTool]

/-- C10: calling `getEmployeeByName` with the empty string matches every
employee (the empty substring is contained in every name), so a
non-empty employee collection is returned whole with `success:true`,
never the empty-match failure branch. -/
theorem executeTool_emptyName_returnsAll (E : List Employee) (A : AboutData)
    (F : List FAQCategory) (args : Args)
    (hn : lookupArg args "name" = some "") (hne : E ≠ []) :
    executeTool E A F "getEmployeeByName" args = .ok (.employeesFound E) := by
  have hfilter :
      E.filter (fun emp => jsIncludes (jsToLower emp.name) (jsToLower "")) = E := by
    apply List.filter_eq_self.mpr
    intro a _
    show jsIncludes (jsToLower a.name) (jsToLower "") = true
    have h0 : jsToLower "" = "" := rfl
    rw [h0]
    unfold jsIncludes
    simpa using listIncludes_nil _
  have hlen : E.length ≠ 0 := by
    simpa [List.length_eq_zero] using hne
  simp [executeTool, hn, hfilter, hlen]

/-- Closed instance of `executeTool_emptyName_returnsAll` on the sample
employee collection. -/
theorem executeTool_emptyName_returnsAll_witness :
    lookupArg [("name", "")] "name" = some "" ∧
    sampleEmployees ≠ [] ∧
    executeTool sampleEmployees sampleAbout sampleFaqs "getEmployeeByName"
      [("name", "")] = .ok (.employeesFound sampleEmployees) :=
  ⟨rfl, by decide,
   executeTool_emptyName_returnsAll sampleEmployees sampleAbout sampleFaqs
     [("name", "")] rfl (by decide)⟩

/-- C1 (counterexample): an upstream `response.function_call_arguments.done`
message whose argument object lacks the required `name` field makes the
dispatch throw; the relay's `catch` swallows the fault and sends nothing
upstream — no `conversation.item.create` and no `response.create` —
refuting "exactly one … regardless of whether the tool dispatch
succeeded or failed". -/
theorem handleUpstream_faultingDispatch_sendsNothing :
    handleUpstreamMessage sampleEmployees sampleAbout sampleFaqs
      ⟨"response.function_call_arguments.done", "call_1", "getEmployeeByName",
        some ([] : Args)⟩ = [] := rfl

/-- C1 (amended): for every upstream `response.function_call_arguments.done`
message whose argument payload parses and whose dispatch returns a
`ToolResult` (success or failure alike), the relay sends upstream exactly
one `conversation.item.create` carrying the serialized result under the
same `call_id`, immediately followed by exactly one `response.create`;
when the parse or the dispatch throws, nothing is sent. -/
theorem handleUpstream_ok_sendsPair (E : List Employee) (A : AboutData)
    (F : List FAQCategory) (msg : UpMsg) (args : Args) (result : ToolResult)
    (htype : msg.type = "response.function_call_arguments.done")
    (hargs : msg.argumentsPayload = some args)
    (hexec : executeTool E A F msg.name args = .ok result) :
    handleUpstreamMessage E A F msg =
      [.itemCreate msg.call_id (serializeToolResult result), .responseCreate] := by
  simp [handleUpstreamMessage, htype, hargs, hexec]

/-- Closed instance of `handleUpstream_ok_sendsPair`: a `getAllEmployees`
call on the sample knowledge base produces exactly the item-create /
response-create pair. -/
theorem handleUpstream_ok_sendsPair_witness :
    handleUpstreamMessage sampleEmployees sampleAbout sampleFaqs
      ⟨"response.function_call_arguments.done", "call_42", "getAllEmployees",
        some ([] : Args)⟩ =
      [.itemCreate "call_42" (serializeToolResult (.allEmployees 2
        [⟨"John Doe", "CTO", "john@sb.com"⟩,
         ⟨"Alice Johnson", "Full-Stack Engineer", "alice@sb.com"⟩])),
       .responseCreate] :=
  handleUpstream_ok_sendsPair sampleEmployees sampleAbout sampleFaqs
    ⟨"response.function_call_arguments.done", "call_42", "getAllEmployees",
      some ([] : Args)⟩ ([] : Args) _ rfl rfl rfl

/-- C6 (counterexample): with two FAQ categories whose labels both contain
the search term "marketing", `getFAQsByCategory` returns only the first
(`Array.prototype.find`), omitting the equally matching second category —
refuting "multiple matches are all returned". -/
theorem getFAQsByCategory_returns_first_only :
    executeTool sampleEmployees sampleAbout sampleFaqs "getFAQsByCategory"
      [("category", "marketing")] =
      .ok (.categoryFaqs "Marketing Agency" 1 [⟨"What is marketing?", "Ads"⟩]) ∧
    jsIncludes (jsToLower "Marketing Basics") (jsToLower "marketing") = true :=
  ⟨rfl, rfl⟩

/-- C6 (amended): lookups use case-insensitive substring matching;
`getEmployeeByName` returns every employee whose lowercased name contains
the lowercased search term, but `getFAQsByCategory` returns only the
FIRST category whose label contains the term (all earlier categories are
non-matching). -/
theorem lookup_matching_semantics (E : List Employee) (A : AboutData)
    (F : List FAQCategory) (args : Args) :
    (∀ nm found, lookupArg args "name" = some nm →
      executeTool E A F "getEmployeeByName" args = .ok (.employeesFound found) →
      ∀ e, e ∈ found ↔
        e ∈ E ∧ jsIncludes (jsToLower e.name) (jsToLower nm) = true)
    ∧ (∀ c t n fs, lookupArg args "category" = some c →
      executeTool E A F "getFAQsByCategory" args = .ok (.categoryFaqs t n fs) →
      ∃ l₁ cat l₂, F = l₁ ++ cat :: l₂ ∧ t = cat.title_highlight ∧
        fs = cat.faqs ∧ n = cat.faqs.length ∧
        jsIncludes (jsToLower cat.title_highlight) (jsToLower c) = true ∧
        ∀ c2 ∈ l₁,
          jsIncludes (jsToLower c2.title_highlight) (jsToLower c) = false) := by
  constructor
  · intro nm found hnm hexec
    simp [executeTool, hnm] at hexec
    split at hexec
    · simp at hexec
    · simp only [Except.ok.injEq, ToolResult.employeesFound.injEq] at hexec
      intro e
      rw [← hexec]
      simp [List.mem_filter]
  · intro c t n fs hc hexec
    simp [executeTool, hc] at hexec
    cases hfind : F.find?
        (fun cat => jsIncludes (jsToLower cat.title_highlight) (jsToLower c)) with
    | none => rw [hfind] at hexec; simp at hexec
    | some cat =>
      rw [hfind] at hexec
      simp only [Except.ok.injEq, ToolResult.categoryFaqs.injEq] at hexec
      obtain ⟨ht, hn, hfs⟩ := hexec
      obtain ⟨l₁, l₂, hsplit, hpa, hpre⟩ := find?_split _ F cat hfind
      exact ⟨l₁, cat, l₂, hsplit, ht.symm, hfs.symm, hn.symm, hpa,
        fun c2 h => hpre c2 h⟩

/-- Closed instance of `lookup_matching_semantics`: both conjuncts applied
on concrete data, discharging every hypothesis. -/
theorem lookup_matching_semantics_witness :
    ((⟨"Bob", "CTO", "b@x"⟩ : Employee) ∈ ([⟨"Bob", "CTO", "b@x"⟩] : List Employee) ↔
      (⟨"Bob", "CTO", "b@x"⟩ : Employee) ∈ ([⟨"Bob", "CTO", "b@x"⟩] : List Employee) ∧
        jsIncludes (jsToLower "Bob") (jsToLower "bob") = true)
    ∧ ∃ l₁ cat l₂, sampleFaqs = l₁ ++ cat :: l₂ ∧
        "Marketing Agency" = cat.title_highlight ∧
        ([⟨"What is marketing?", "Ads"⟩] : List FAQ) = cat.faqs ∧
        1 = cat.faqs.length ∧
        jsIncludes (jsToLower cat.title_highlight) (jsToLower "marketing") = true ∧
        ∀ c2 ∈ l₁,
          jsIncludes (jsToLower c2.title_highlight) (jsToLower "marketing") = false :=
  ⟨(lookup_matching_semantics [⟨"Bob", "CTO", "b@x"⟩] sampleAbout sampleFaqs
      [("name", "bob")]).1 "bob" [⟨"Bob", "CTO", "b@x"⟩] rfl rfl
      ⟨"Bob", "CTO", "b@x"⟩,
   (lookup_matching_semantics [⟨"Bob", "CTO", "b@x"⟩] sampleAbout sampleFaqs
      [("category", "marketing")]).2 "marketing" "Marketing Agency" 1
      [⟨"What is marketing?", "Ads"⟩] rfl rfl⟩

/-- C7 (counterexample): if the client closes while the upstream dial is
still in progress, the close handler's `readyState === OPEN` guard skips
the upstream close; when the dial then completes, the session is left
with the client closed and the upstream open, and it stays that way —
refuting the cascading-close claim for the dial-in-progress case. -/
theorem relay_clientClose_whileConnecting_leaks_upstream :
    relayStep (relayStep ⟨.wsOpen, .connecting⟩ .clientClose) .upstreamOpen =
      ⟨.wsClosed, .wsOpen⟩ ∧
    relayStep ⟨.wsClosed, .wsOpen⟩ .upstreamOpen = ⟨.wsClosed, .wsOpen⟩ :=
  ⟨rfl, rfl⟩

/-- C7 (amended): while both handles are open, a close of either side
closes the other within one scheduling step; but a client close during
the upstream dial does not cascade (the upstream handle is left open
once the dial completes). -/
theorem relay_cascading_close (s : RelayConns)
    (hc : s.client = .wsOpen) (hu : s.upstream = .wsOpen) :
    relayStep s .clientClose = ⟨.wsClosed, .wsClosed⟩ ∧
    relayStep s .upstreamClose = ⟨.wsClosed, .wsClosed⟩ := by
  simp [relayStep, hc, hu]

/-- Closed instance of `relay_cascading_close` at the both-open state. -/
theorem relay_cascading_close_witness :
    relayStep ⟨.wsOpen, .wsOpen⟩ .clientClose = ⟨.wsClosed, .wsClosed⟩ ∧
    relayStep ⟨.wsOpen, .wsOpen⟩ .upstreamClose = ⟨.wsClosed, .wsClosed⟩ :=
  relay_cascading_close ⟨.wsOpen, .wsOpen⟩ rfl rfl

/-- C3 (counterexample): with the engine clock at `2` and a stale cursor
at `5`, the `speech_started` handler resets the cursor to `0` — not to
the engine clock `2` — and a chunk arriving later at clock `3` starts at
`3`, not at the clock value the signal was received at. -/
theorem bargeIn_cursor_reset_to_zero_not_clock :
    (stopAudioPlayback ⟨[⟨0, 1⟩], 5, true⟩).1.nextStartTime = 0 ∧
    ((0 : ℚ) ≠ 2) ∧
    (playAudioChunkSchedule (stopAudioPlayback ⟨[⟨0, 1⟩], 5, true⟩).1 3 1).audioQueue
      = [⟨3, 1⟩] ∧
    ((3 : ℚ) ≠ 2) := by
  refine ⟨rfl, by norm_num, ?_, by norm_num⟩
  norm_num [stopAudioPlayback, playAudioChunkSchedule]

/-- C3 (amended): on a `speech_started` signal every queued buffer is
stopped and the queue cleared; the cursor is reset to `0` (not to the
engine clock), and since the engine clock is never negative the next
chunk scheduled at clock `t` starts exactly at `t` — the clock at
scheduling time — never at the stale future cursor. -/
theorem bargeIn_stops_all_and_resets (st : PlayerState) (t d : ℚ)
    (hctx : st.hasContext = true) (ht : 0 ≤ t) :
    (stopAudioPlayback st).2 = st.audioQueue ∧
    (stopAudioPlayback st).1.audioQueue = [] ∧
    (stopAudioPlayback st).1.nextStartTime = 0 ∧
    (playAudioChunkSchedule (stopAudioPlayback st).1 t d).audioQueue =
      [⟨t, d⟩] := by
  simp [stopAudioPlayback, playAudioChunkSchedule, hctx, max_eq_left ht]

/-- Closed instance of `bargeIn_stops_all_and_resets`. -/
theorem bargeIn_stops_all_and_resets_witness :
    (stopAudioPlayback ⟨[⟨0, 4⟩], 7, true⟩).2 = [⟨0, 4⟩] ∧
    (stopAudioPlayback ⟨[⟨0, 4⟩], 7, true⟩).1.audioQueue = [] ∧
    (stopAudioPlayback ⟨[⟨0, 4⟩], 7, true⟩).1.nextStartTime = 0 ∧
    (playAudioChunkSchedule (stopAudioPlayback ⟨[⟨0, 4⟩], 7, true⟩).1 2 1).audioQueue
      = [⟨2, 1⟩] :=
  bargeIn_stops_all_and_resets ⟨[⟨0, 4⟩], 7, true⟩ 2 1 rfl (by norm_num)

/-- Every chunk of a scheduler run keeps its nonnegative duration. -/
theorem scheduleRun_duration_nonneg :
    ∀ (chunks : List (ℚ × ℚ)) (c : ℚ) (r : ℚ × ℚ × ℚ),
      r ∈ scheduleRun c chunks → (∀ p ∈ chunks, 0 ≤ p.2) → 0 ≤ r.2.1
  | [], _, r, hr, _ => by simp [scheduleRun] at hr
  | (clk, d) :: rest, c, r, hr, hd => by
    simp only [scheduleRun, List.mem_cons] at hr
    rcases hr with hr | hr
    · rw [hr]; exact hd (clk, d) (List.mem_cons_self _ _)
    · exact scheduleRun_duration_nonneg rest (max clk c + d) r hr
        (fun q hq => hd q (List.mem_cons_of_mem _ hq))

/-- The first chunk a scheduler run emits never starts before the
incoming cursor. -/
theorem scheduleRun_head_cursor_le :
    ∀ (chunks : List (ℚ × ℚ)) (c : ℚ) (r : ℚ × ℚ × ℚ),
      (scheduleRun c chunks).head? = some r → c ≤ r.2.2
  | [], _, _, h => by simp [scheduleRun] at h
  | (clk, d) :: rest, c, r, h => by
    simp only [scheduleRun, List.head?_cons, Option.some.injEq] at h
    rw [← h]
    exact le_max_right clk c

/-- C4: over any run of the playback scheduler with no intervening
barge-in, each chunk starts at `max(clock, cursor)`, so consecutive
starts satisfy `start + duration ≤ nextStart` (no overlap), no chunk is
scheduled before the clock value it arrived at, and (for nonnegative
durations) the cursor `start + duration` advances monotonically. -/
theorem scheduler_non_overlap (cursor : ℚ) (chunks : List (ℚ × ℚ))
    (hd : ∀ p ∈ chunks, 0 ≤ p.2) :
    List.Chain' (fun a b : ℚ × ℚ × ℚ => a.2.2 + a.2.1 ≤ b.2.2)
      (scheduleRun cursor chunks) ∧
    (∀ r ∈ scheduleRun cursor chunks, r.1 ≤ r.2.2) ∧
    List.Chain' (fun a b : ℚ × ℚ × ℚ => a.2.2 + a.2.1 ≤ b.2.2 + b.2.1)
      (scheduleRun cursor chunks) := by
  induction chunks generalizing cursor with
  | nil => simp [scheduleRun]
  | cons p rest ih =>
    obtain ⟨clk, d⟩ := p
    have hdrest : ∀ q ∈ rest, 0 ≤ q.2 := fun q hq => hd q (List.mem_cons_of_mem _ hq)
    obtain ⟨ihChain, ihClock, ihCursor⟩ := ih (max clk cursor + d) hdrest
    have hhead : ∀ r, (scheduleRun (max clk cursor + d) rest).head? = some r →
        max clk cursor + d ≤ r.2.2 :=
      fun r hr => scheduleRun_head_cursor_le rest (max clk cursor + d) r hr
    refine ⟨?_, ?_, ?_⟩
    · simp only [scheduleRun]
      rw [List.chain'_cons']
      exact ⟨fun b hb => hhead b hb, ihChain⟩
    · intro r hr
      simp only [scheduleRun, List.mem_cons] at hr
      rcases hr with hr | hr
      · rw [hr]; exact le_max_left clk cursor
      · exact ihClock r hr
    · simp only [scheduleRun]
      rw [List.chain'_cons']
      refine ⟨fun b hb => ?_, ihCursor⟩
      have hb2 : 0 ≤ b.2.1 :=
        scheduleRun_duration_nonneg rest (max clk cursor + d) b
          (List.mem_of_mem_head? hb) hdrest
      have hb3 := hhead b hb
      show max clk cursor + d ≤ b.2.2 + b.2.1
      linarith

/-- Closed instance of `scheduler_non_overlap` on a two-chunk burst. -/
theorem scheduler_non_overlap_witness :
    (∀ p ∈ ([(0, 1), (2, 1)] : List (ℚ × ℚ)), 0 ≤ p.2) ∧
    (List.Chain' (fun a b : ℚ × ℚ × ℚ => a.2.2 + a.2.1 ≤ b.2.2)
      (scheduleRun 0 [(0, 1), (2, 1)]) ∧
    (∀ r ∈ scheduleRun 0 [(0, 1), (2, 1)], r.1 ≤ r.2.2) ∧
    List.Chain' (fun a b : ℚ × ℚ × ℚ => a.2.2 + a.2.1 ≤ b.2.2 + b.2.1)
      (scheduleRun 0 [(0, 1), (2, 1)])) :=
  ⟨by norm_num, scheduler_non_overlap 0 [(0, 1), (2, 1)] (by norm_num)⟩

/-- Byte pairing halves the length, dropping a lone trailing byte. -/
theorem pairBytes_length :
    ∀ bs : List ℕ, 2 * (pairBytes bs).length = bs.length - bs.length % 2
  | [] => by simp [pairBytes]
  | [_] => by simp [pairBytes]
  | lo :: hi :: rest => by
    have ih := pairBytes_length rest
    simp only [pairBytes, List.length_cons]
    omega

/-- C9: the playback decode path handles an odd-length transport payload
deterministically and without reading past the buffer: the byte list is
padded with one zero byte to an even length, and the decoded sample
count times two always equals that padded length. -/
theorem decode_oddPayload_safe (bs : List ℕ) :
    2 * (decodeAudioPayload bs).length = bs.length + bs.length % 2 ∧
    (bs.length % 2 = 1 → decodeAudioPayload bs = pairBytes (bs ++ [0])) := by
  constructor
  · unfold decodeAudioPayload
    by_cases h : bs.length % 2 = 0
    · rw [if_pos h, pairBytes_length]
      omega
    · rw [if_neg h]
      have hlen := pairBytes_length (bs ++ [0])
      simp only [List.length_append, List.length_cons, List.length_nil] at hlen
      omega
  · intro h
    unfold decodeAudioPayload
    rw [if_neg (by omega)]

/-- Closed instance of `decode_oddPayload_safe` on a three-byte payload. -/
theorem decode_oddPayload_safe_witness :
    2 * (decodeAudioPayload [1, 2, 3]).length =
      ([1, 2, 3] : List ℕ).length + ([1, 2, 3] : List ℕ).length % 2 ∧
    ([1, 2, 3] : List ℕ).length % 2 = 1 ∧
    decodeAudioPayload [1, 2, 3] = pairBytes ([1, 2, 3] ++ [0]) :=
  ⟨(decode_oddPayload_safe [1, 2, 3]).1, rfl,
   (decode_oddPayload_safe [1, 2, 3]).2 rfl⟩

/-- On the nominal input range the clamp is the identity. -/
theorem clampSample_eq_self {x : ℚ} (h1 : -1 ≤ x) (h2 : x ≤ 1) :
    clampSample x = x := by
  unfold clampSample
  rw [min_eq_right h2, max_eq_right h1]

/-- The truncated encoder value always fits the signed 16-bit range, so
`DataView.setInt16` stores it without wrap-around. -/
theorem encodeSampleRaw_bounds {x : ℚ} (h1 : -1 ≤ x) (h2 : x ≤ 1) :
    -32768 ≤ encodeSampleRaw x ∧ encodeSampleRaw x ≤ 32767 := by
  unfold encodeSampleRaw
  rw [clampSample_eq_self h1 h2]
  by_cases hx : x < 0
  · rw [if_pos hx]
    have hlo : (-32769 : ℤ) < ⌈x * 32768⌉ := by
      apply Int.lt_ceil.mpr
      push_cast
      linarith
    have hhi : ⌈x * 32768⌉ ≤ 0 := by
      apply Int.ceil_le.mpr
      push_cast
      nlinarith
    omega
  · rw [if_neg hx]
    push_neg at hx
    have hlo : (0 : ℤ) ≤ ⌊x * 32767⌋ := by
      apply Int.le_floor.mpr
      push_cast
      nlinarith
    have hhi : ⌊x * 32767⌋ ≤ 32767 := by
      have hmono : ⌊x * 32767⌋ ≤ ⌊((32767 : ℤ) : ℚ)⌋ := by
        apply Int.floor_le_floor
        push_cast
        linarith
      rwa [Int.floor_intCast] at hmono
    omega

/-- Wrap-around into the signed 16-bit range fixes in-range values. -/
theorem wrapInt16_eq_self {v : ℤ} (h1 : -32768 ≤ v) (h2 : v ≤ 32767) :
    wrapInt16 v = v := by
  unfold wrapInt16
  omega

/-- C5: for every sample in [-1, 1], the capture-direction encoding
(clamp, symmetric scale by 32768/32767, truncate, store as int16)
followed by the playback-direction decoding (divide by 32767) changes
the sample by at most one quantization step, 1/32767. -/
theorem pcm_roundtrip_error_bound (x : ℚ) (h1 : -1 ≤ x) (h2 : x ≤ 1) :
    |decodeSample (encodeSample x) - x| ≤ 1 / 32767 := by
  have hb := encodeSampleRaw_bounds h1 h2
  have hw : encodeSample x = encodeSampleRaw x := wrapInt16_eq_self hb.1 hb.2
  rw [hw]
  unfold decodeSample encodeSampleRaw
  rw [clampSample_eq_self h1 h2]
  by_cases hx : x < 0
  · rw [if_pos hx]
    have hc1 : (x * 32768 : ℚ) ≤ ((⌈x * 32768⌉ : ℤ) : ℚ) := Int.le_ceil _
    have hc2 : ((⌈x * 32768⌉ : ℤ) : ℚ) < x * 32768 + 1 :=
      Int.ceil_lt_add_one _
    have heq : ((⌈x * 32768⌉ : ℤ) : ℚ) / 32767 - x =
        (((⌈x * 32768⌉ : ℤ) : ℚ) - 32767 * x) / 32767 := by ring
    rw [heq, abs_div, abs_of_pos (by norm_num : (0 : ℚ) < 32767)]
    have habs : |((⌈x * 32768⌉ : ℤ) : ℚ) - 32767 * x| ≤ 1 :=
      abs_le.mpr ⟨by linarith, by linarith⟩
    rw [div_le_div_iff₀ (by norm_num) (by norm_num)]
    linarith
  · rw [if_neg hx]
    push_neg at hx
    have hf1 : ((⌊x * 32767⌋ : ℤ) : ℚ) ≤ x * 32767 := Int.floor_le _
    have hf2 : (x * 32767 : ℚ) < ((⌊x * 32767⌋ : ℤ) : ℚ) + 1 :=
      Int.lt_floor_add_one _
    have heq : ((⌊x * 32767⌋ : ℤ) : ℚ) / 32767 - x =
        (((⌊x * 32767⌋ : ℤ) : ℚ) - 32767 * x) / 32767 := by ring
    rw [heq, abs_div, abs_of_pos (by norm_num : (0 : ℚ) < 32767)]
    have habs : |((⌊x * 32767⌋ : ℤ) : ℚ) - 32767 * x| ≤ 1 :=
      abs_le.mpr ⟨by linarith, by linarith⟩
    rw [div_le_div_iff₀ (by norm_num) (by norm_num)]
    linarith

/-- Closed instance of `pcm_roundtrip_error_bound` at the sample 1/2. -/
theorem pcm_roundtrip_error_bound_witness :
    (-1 ≤ (1 / 2 : ℚ)) ∧ ((1 / 2 : ℚ) ≤ 1) ∧
    |decodeSample (encodeSample (1 / 2)) - 1 / 2| ≤ 1 / 32767 :=
  ⟨by norm_num, by norm_num,
   pcm_roundtrip_error_bound (1 / 2) (by norm_num) (by norm_num)⟩

end VoiceRelay
